import Mathlib

set_option maxRecDepth 100000

/-!
# Verification of the rdiff-backup pipe-connection layer

A shallow embedding of `src/rdiff_backup/connection.py`: the low-level
frame codec (`LowLevelPipeConnection._write` / `._get` / `._i2b` / `._b2i`),
the request/response engine (`PipeConnection.reval`, `._get_response`,
`._answer_request`, `._get_new_req_num`), the name resolver
(`Connection._eval`), the error marshaller (`PipeConnection._extract_exception`
and the OS-error translation in `reval`), and the routed-call layer
(`RedirectedConnection.reval`, `RedirectedRun`).

Bytes are modelled as `List Nat` (each element a byte value); Python
exceptions that abort an operation are modelled with `Option`/sum results;
pickled payloads are kept opaque (the codec treats them as raw bytes).
-/

namespace RdiffConn

/-! ## Byte/integer codec: `_i2b` and `_b2i`

`_b2i(b)` is `int.from_bytes(b, byteorder="big")`.
`_i2b(i, size)` is `i.to_bytes(size, byteorder="big")`, where `size = 0`
means the minimal size `(i.bit_length() + 7) // 8`.  `int.to_bytes` raises
`OverflowError` when `i` does not fit in `size` bytes, which we model with
`Option`. -/

/-- `int.from_bytes(l, byteorder="big")`. -/
def fromBytesBE (l : List Nat) : Nat :=
  l.foldl (fun acc b => acc * 256 + b) 0

/-- `i.to_bytes(size, byteorder="big")`, the raw digit expansion
(most significant byte first). -/
def toBytesBE : Nat → Nat → List Nat
  | 0, _ => []
  | k + 1, i => toBytesBE k (i / 256) ++ [i % 256]

/-- `i.to_bytes(size, "big")` with the `OverflowError` check:
`none` when `i` needs more than `size` bytes. -/
def i2bSized (i : Nat) (size : Nat) : Option (List Nat) :=
  if i < 256 ^ size then some (toBytesBE size i) else none

/-- `LowLevelPipeConnection._i2b(i)` with the default `size=0`:
minimal-length big-endian encoding, using `(bit_length + 7) // 8` bytes.
`Nat.size` is Python's `int.bit_length`. -/
def i2b (i : Nat) : List Nat :=
  toBytesBE ((Nat.size i + 7) / 8) i

/-- `LowLevelPipeConnection._b2i`. -/
def b2i (l : List Nat) : Nat := fromBytesBE l

/-! ## Frame writer: `LowLevelPipeConnection._write`

`_write(headerchar, data, req_num)` emits
`headerchar + _i2b(req_num, 1) + _i2b(len(data), 7)` then `data` and
flushes.  `_i2b` raises `OverflowError` (uncaught — the surrounding
`except` only catches `OSError`/`AttributeError`) while the argument of
`outpipe.write` is being built, so on overflow nothing reaches the pipe. -/

/-- `LowLevelPipeConnection._write`: `some bytes` = the exact byte
sequence put on the pipe, `none` = rejected locally (OverflowError from
`_i2b` before any write). -/
def lowWrite (tag : Nat) (data : List Nat) (req_num : Nat) : Option (List Nat) :=
  (i2bSized req_num 1).bind fun reqBytes =>
    (i2bSized data.length 7).bind fun lenBytes =>
      some (tag :: (reqBytes ++ lenBytes ++ data))

/-- The closed tag set of the protocol: `o b f i R Q r c q` (byte values). -/
def closedTags : List Nat :=
  [111, 98, 102, 105, 82, 81, 114, 99, 113]

/-- Byte value of the quit tag `q`. -/
def quitTag : Nat := 113

/-! ## Frame reader, header phase: `LowLevelPipeConnection._get`

`_get` reads 9 header bytes (`ConnectionReadError` on a short read),
splits them into tag, request number and 7-byte big-endian length, raises
`ConnectionQuit` as soon as the tag is `q` — *before* the payload is
read — and otherwise reads `length` payload bytes.  We model the pipe as
the list of bytes not yet consumed; each outcome records where the read
position ends up. -/

/-- Outcome of the header-and-payload phase of `_get`. -/
inductive ParseResult where
  /-- `ConnectionReadError`: fewer than 9 header bytes available. -/
  | truncated : ParseResult
  /-- `ConnectionQuit` raised on tag `q`; carries the bytes left unread
  in the pipe (the 9 header bytes have been consumed, nothing more). -/
  | quitSig (rest : List Nat) : ParseResult
  /-- A frame: tag, request number, payload, and the bytes left in the
  pipe after the payload. -/
  | frame (tag : Nat) (req_num : Nat) (payload : List Nat) (rest : List Nat) : ParseResult
  deriving DecidableEq, Repr

/-- The frame-level part of `LowLevelPipeConnection._get` (lines reading
the header, the quit check, and the payload read). -/
def parseFrame (stream : List Nat) : ParseResult :=
  if stream.length < 9 then ParseResult.truncated
  else
    let header := stream.take 9
    let tag := header.headD 0
    let req_num := b2i ((header.drop 1).take 1)
    let length := b2i (header.drop 2)
    let rest := stream.drop 9
    if tag = quitTag then ParseResult.quitSig rest
    else ParseResult.frame tag req_num (rest.take length) (rest.drop length)

/-! ## Frame reader, value phase: the tag dispatch of `_get`

After the payload is read, `_get` maps `(format_string, data)` to a
value.  Pickled payloads (`o`, `r`, `R`, `Q`) are kept opaque; `f`/`i`
decode the payload as a virtual-file id; `c` looks the decoded integer up
in the receiver's `specifics.connection_dict` (a missing key raises
`KeyError`, modelled as `none`); an unknown tag raises
`ConnectionReadError` (also `none`-like, distinguished below). -/

/-- A decoded frame value (pickled object graphs kept as raw bytes). -/
inductive DecodedValue where
  | obj (data : List Nat) : DecodedValue
  | buf (data : List Nat) : DecodedValue
  | vfile (id : Nat) : DecodedValue
  | fileIter (id : Nat) : DecodedValue
  | rorp (data : List Nat) : DecodedValue
  | rp (data : List Nat) : DecodedValue
  | qrp (data : List Nat) : DecodedValue
  | connRef (peer : Nat) : DecodedValue
  deriving DecidableEq, Repr

/-- The tag dispatch of `_get`.  `connDict` is the receiver's
`specifics.connection_dict` (peers identified by abstract ids). -/
def decodeValue (connDict : Nat → Option Nat) (tag : Nat) (data : List Nat) :
    Option DecodedValue :=
  if tag = 111 then some (DecodedValue.obj data)
  else if tag = 98 then some (DecodedValue.buf data)
  else if tag = 102 then some (DecodedValue.vfile (b2i data))
  else if tag = 105 then some (DecodedValue.fileIter (b2i data))
  else if tag = 114 then some (DecodedValue.rorp data)
  else if tag = 82 then some (DecodedValue.rp data)
  else if tag = 81 then some (DecodedValue.qrp data)
  else if tag = 99 then (connDict (b2i data)).map DecodedValue.connRef
  else none

/-! ## Basic codec lemmas -/

theorem toBytesBE_length (k i : Nat) : (toBytesBE k i).length = k := by
  induction k generalizing i with
  | zero => rfl
  | succ k ih => simp [toBytesBE, ih]

theorem fromBytesBE_append_singleton (l : List Nat) (b : Nat) :
    fromBytesBE (l ++ [b]) = fromBytesBE l * 256 + b := by
  simp [fromBytesBE, List.foldl_append]

theorem fromBytesBE_toBytesBE (k i : Nat) :
    fromBytesBE (toBytesBE k i) = i % 2 ^ (8 * k) := by
  induction k generalizing i with
  | zero => simp [toBytesBE, fromBytesBE, Nat.mod_one]
  | succ k ih =>
    rw [toBytesBE, fromBytesBE_append_singleton, ih]
    have h256 : (2 : Nat) ^ (8 * (k + 1)) = 256 * 2 ^ (8 * k) := by ring
    rw [h256, Nat.mod_mul]
    omega

theorem fromBytesBE_toBytesBE_of_lt (k i : Nat) (h : i < 2 ^ (8 * k)) :
    fromBytesBE (toBytesBE k i) = i := by
  rw [fromBytesBE_toBytesBE, Nat.mod_eq_of_lt h]

theorem size_le_bytes (s : Nat) : s ≤ 8 * ((s + 7) / 8) := by
  have h1 := Nat.div_add_mod (s + 7) 8
  have h2 : (s + 7) % 8 < 8 := Nat.mod_lt _ (by norm_num)
  omega

theorem lt_two_pow_bytes (i : Nat) : i < 2 ^ (8 * ((Nat.size i + 7) / 8)) := by
  calc i < 2 ^ Nat.size i := Nat.lt_size_self i
    _ ≤ 2 ^ (8 * ((Nat.size i + 7) / 8)) :=
      Nat.pow_le_pow_right (by norm_num) (size_le_bytes _)

/-- `_b2i(_i2b(i)) = i` for every natural `i`. -/
theorem b2i_i2b (i : Nat) : b2i (i2b i) = i :=
  fromBytesBE_toBytesBE_of_lt _ _ (lt_two_pow_bytes i)

/-- `_i2b(0)` is the empty byte string: `0` has bit length `0`,
so the minimal size is `0` bytes. -/
theorem i2b_zero : i2b 0 = [] := by
  rw [i2b, Nat.size_zero]
  rfl

theorem toBytesBE_one (n : Nat) (h : n < 256) : toBytesBE 1 n = [n] := by
  simp [toBytesBE, Nat.mod_eq_of_lt h]

theorem b2i_singleton (n : Nat) : b2i [n] = n := by
  simp [b2i, fromBytesBE]

theorem lowWrite_some (tag : Nat) (data : List Nat) (req_num : Nat)
    (h1 : req_num < 256) (h2 : data.length < 2 ^ 56) :
    lowWrite tag data req_num
      = some (tag :: (toBytesBE 1 req_num ++ toBytesBE 7 data.length ++ data)) := by
  have e1 : i2bSized req_num 1 = some (toBytesBE 1 req_num) := by
    rw [i2bSized, if_pos (by simpa using h1)]
  have e2 : i2bSized data.length 7 = some (toBytesBE 7 data.length) := by
    rw [i2bSized, if_pos]
    have h256 : (256 : Nat) ^ 7 = 2 ^ 56 := by norm_num
    omega
  rw [lowWrite, e1, e2]
  rfl

theorem lowWrite_none_req (tag : Nat) (data : List Nat) (req_num : Nat)
    (h : ¬ req_num < 256) : lowWrite tag data req_num = none := by
  have e1 : i2bSized req_num 1 = none := by
    rw [i2bSized, if_neg (by simpa using h)]
  rw [lowWrite, e1]
  rfl

theorem lowWrite_none_len (tag : Nat) (data : List Nat) (req_num : Nat)
    (h : ¬ data.length < 2 ^ 56) : lowWrite tag data req_num = none := by
  have e2 : i2bSized data.length 7 = none := by
    rw [i2bSized, if_neg]
    have h256 : (256 : Nat) ^ 7 = 2 ^ 56 := by norm_num
    omega
  cases e1 : i2bSized req_num 1 <;> simp [lowWrite, e1, e2]

/-- The header-plus-payload parse inverts the writer for every non-quit
frame, leaving the remaining pipe bytes untouched. -/
theorem parseFrame_lowWrite (tag n : Nat) (P s rest : List Nat)
    (hq : tag ≠ quitTag) (hw : lowWrite tag P n = some s) :
    parseFrame (s ++ rest) = ParseResult.frame tag n P rest := by
  by_cases h1 : n < 256
  · by_cases h2 : P.length < 2 ^ 56
    · rw [lowWrite_some tag P n h1 h2] at hw
      have hs := Option.some.inj hw
      subst hs
      have hn : toBytesBE 1 n = [n] := toBytesBE_one n h1
      have harg :
          (tag :: (toBytesBE 1 n ++ toBytesBE 7 P.length ++ P)) ++ rest
            = ([tag, n] ++ toBytesBE 7 P.length) ++ (P ++ rest) := by
        simp [hn]
      rw [harg]
      have hhdr : ([tag, n] ++ toBytesBE 7 P.length).length = 9 := by
        simp [toBytesBE_length]
      have hlen : b2i (toBytesBE 7 P.length) = P.length :=
        fromBytesBE_toBytesBE_of_lt 7 P.length (by simpa using h2)
      rw [parseFrame,
        if_neg (by simp only [List.length_append, hhdr]; omega),
        List.take_left' hhdr, List.drop_left' hhdr]
      simp [b2i_singleton, hlen, hq]
    · rw [lowWrite_none_len tag P n h2] at hw
      simp at hw
  · rw [lowWrite_none_req tag P n h1] at hw
    simp at hw

/-! ## Claim theorems on the frame codec -/

/-- C1 (amended): for every tag in the closed tag set **other than the
quit tag `q`**, every request number and every payload below the length
bound, writing the frame with `_write` and parsing it with `_get` yields
the same tag, request number and payload (and consumes exactly the
frame's bytes). -/
theorem frame_roundtrip (tag n : Nat) (P s rest : List Nat)
    (htag : tag ∈ closedTags) (hq : tag ≠ quitTag)
    (hw : lowWrite tag P n = some s) :
    parseFrame (s ++ rest) = ParseResult.frame tag n P rest :=
  parseFrame_lowWrite tag n P s rest hq hw

/-- Witness for `frame_roundtrip` at tag `o`, request number 5,
payload `[1, 2, 3]`, with one byte left in the pipe. -/
theorem frame_roundtrip_witness :
    (111 ∈ closedTags ∧ 111 ≠ quitTag ∧
      lowWrite 111 [1, 2, 3] 5 = some [111, 5, 0, 0, 0, 0, 0, 0, 3, 1, 2, 3]) ∧
    parseFrame ([111, 5, 0, 0, 0, 0, 0, 0, 3, 1, 2, 3] ++ [9])
      = ParseResult.frame 111 5 [1, 2, 3] [9] :=
  ⟨⟨by decide, by decide, by decide⟩,
    frame_roundtrip 111 5 [1, 2, 3] _ [9] (by decide) (by decide) (by decide)⟩

/-- C1 counterexample: for the tag `q` — a member of the closed tag
set — the round trip fails: `_get` raises `ConnectionQuit` instead of
yielding the frame. -/
theorem frame_roundtrip_quit_cex :
    113 ∈ closedTags ∧
    lowWrite 113 [] 0 = some [113, 0, 0, 0, 0, 0, 0, 0, 0] ∧
    parseFrame [113, 0, 0, 0, 0, 0, 0, 0, 0] = ParseResult.quitSig [] ∧
    ParseResult.quitSig [] ≠ ParseResult.frame 113 0 [] [] := by
  refine ⟨by decide, by decide, ?_, by decide⟩
  decide

/-- C3 (amended): a frame whose tag byte is `q` short-circuits `_get`
into the quit signal whatever the request-number byte and the length
field hold, and the payload is **not** drained: the quit exception is
raised right after the 9 header bytes, leaving the payload bytes unread
in the pipe. -/
theorem quit_short_circuit (n L : Nat) (hL : L < 2 ^ 56) (rest : List Nat) :
    parseFrame (quitTag :: n :: (toBytesBE 7 L ++ rest)) = ParseResult.quitSig rest := by
  have hstream :
      quitTag :: n :: (toBytesBE 7 L ++ rest)
        = ([quitTag, n] ++ toBytesBE 7 L) ++ rest := by
    simp
  rw [hstream]
  have hhdr : ([quitTag, n] ++ toBytesBE 7 L).length = 9 := by
    simp [toBytesBE_length]
  rw [parseFrame,
    if_neg (by simp only [List.length_append, hhdr]; omega),
    List.take_left' hhdr, List.drop_left' hhdr]
  simp

/-- Witness for `quit_short_circuit`: a `q` frame with request number 255
and length field 0, one byte left behind in the pipe. -/
theorem quit_short_circuit_witness :
    (0 < 2 ^ 56) ∧
    parseFrame (quitTag :: 255 :: (toBytesBE 7 0 ++ [1])) = ParseResult.quitSig [1] :=
  ⟨by norm_num, quit_short_circuit 255 0 (by norm_num) [1]⟩

/-- C3 counterexample (to the "payload is still drained" part of the
claim): a `q` frame announcing a 3-byte payload leaves those 3 bytes
unread in the pipe — the read position stops after the header. -/
theorem quit_payload_not_drained_cex :
    parseFrame [113, 7, 0, 0, 0, 0, 0, 0, 3, 97, 98, 99]
      = ParseResult.quitSig [97, 98, 99] ∧
    ParseResult.quitSig [97, 98, 99] ≠ ParseResult.quitSig [] := by
  constructor
  · decide
  · decide

/-- C6: any attempted frame emission with a request number above 255 or a
payload of `2^56` bytes or more is rejected locally by `_i2b`'s overflow
check (an uncaught `OverflowError` raised while the header is being
built), and nothing is written to the pipe. -/
theorem length_bounds_reject (tag req_num : Nat) (data : List Nat)
    (h : 255 < req_num ∨ 2 ^ 56 ≤ data.length) :
    lowWrite tag data req_num = none := by
  rcases h with h | h
  · exact lowWrite_none_req tag data req_num (by omega)
  · exact lowWrite_none_len tag data req_num (by omega)

/-- Witness for `length_bounds_reject` at request number 300. -/
theorem length_bounds_reject_witness :
    (255 < 300 ∨ 2 ^ 56 ≤ ([] : List Nat).length) ∧
    lowWrite 111 [] 300 = none :=
  ⟨Or.inl (by norm_num), length_bounds_reject 111 300 [] (Or.inl (by norm_num))⟩

/-- C9: `_b2i` inverts `_i2b` on every natural number; the minimal-length
encoding of `0` is the empty byte string; and a `c` frame with an empty
payload decodes, via `_b2i(b"") = 0`, to the peer registered under
connection number 0 in the receiver's registry. -/
theorem int_codec_roundtrip_conn_zero :
    (∀ i : Nat, b2i (i2b i) = i) ∧ i2b 0 = [] ∧
    (∀ (connDict : Nat → Option Nat) (p : Nat), connDict 0 = some p →
      decodeValue connDict 99 [] = some (DecodedValue.connRef p)) := by
  refine ⟨b2i_i2b, i2b_zero, fun connDict p h => ?_⟩
  simp [decodeValue, b2i, fromBytesBE, h]

/-- Witness for `int_codec_roundtrip_conn_zero` on a concrete registry
mapping connection number 0 to peer 42, and on the integer 1000. -/
theorem int_codec_roundtrip_conn_zero_witness :
    b2i (i2b 1000) = 1000 ∧
    decodeValue (fun k => if k = 0 then some 42 else none) 99 []
      = some (DecodedValue.connRef 42) :=
  ⟨int_codec_roundtrip_conn_zero.1 1000,
    int_codec_roundtrip_conn_zero.2.2 (fun k => if k = 0 then some 42 else none) 42 rfl⟩

/-! ## The request/response engine: `PipeConnection`

`reval` allocates a request number from `unused_request_numbers`
(`set.pop` — an arbitrary element, modelled by a choice function `pick`),
sends the `ConnectionRequest` and one frame per argument, and enters
`_get_response`.  `_get_response` reads decoded frames `(req_num, value)`
until one carries the desired number, answering inbound requests
(`_answer_request`) on the way; a quit frame makes it send a
`"quitting"` acknowledgement (allocating a fresh request number for it),
close the pipes and return `None`.

The inbound side of the pipe is modelled as the list of decoded frames
the remote will send, in order; `Option` models Python exceptions that
abort the call (assertion failures, `KeyError` on the request-number set,
fatal errors, or blocking forever on an empty pipe).  `evalFn` abstracts
`Security.vet_request` + `_eval` + the call itself + `_extract_exception`:
it returns the marshalled response value (a captured exception is an
ordinary value), or `none` for a routine-fatal error that is re-raised.
The loop is driven by a fuel argument; since every iteration consumes at
least one frame, fuel equal to the number of frames never runs out before
the pipe does. -/

/-- A decoded value travelling on a `PipeConnection`, as relevant to the
request engine: a `ConnectionRequest`, a marshalled exception (`OSError`
with its `errno` / optional `errno_str` / `strerror`, or any other
exception), `None`, or some other object. -/
inductive RValue where
  | obj (n : Nat) : RValue
  | str (s : String) : RValue
  | none_ : RValue
  | connReq (function_string : String) (num_args : Nat) : RValue
  | exc (msg : String) : RValue
  | osErr (errno : Nat) (errno_str : Option String) (strerror : String) : RValue
  deriving DecidableEq, Repr

/-- `isinstance(result, Exception)` (with `SystemExit`/`KeyboardInterrupt`
folded in): the values `reval` re-raises instead of returning. -/
def RValue.isException : RValue → Bool
  | .exc _ => true
  | .osErr _ _ _ => true
  | _ => false

/-- A decoded frame as `_get` returns it to `_get_response`: either the
`ConnectionQuit` signal or a `(req_num, value)` pair. -/
inductive Frame where
  | quit : Frame
  | msg (req_num : Nat) (value : RValue) : Frame
  deriving DecidableEq, Repr

/-- The argument-reading loop of `_answer_request`: read exactly
`num_args` frames, asserting that each carries the request's own number.
A mismatched number fails the assertion (aborting the call), and a quit
frame raises `ConnectionQuit` out of the loop — both `none`. -/
def read_args (req_num : Nat) : Nat → List Frame → Option (List RValue × List Frame)
  | 0, msgs => some ([], msgs)
  | _ + 1, [] => none
  | _ + 1, Frame.quit :: _ => none
  | n + 1, Frame.msg a v :: rest =>
    if a = req_num then
      (read_args req_num n rest).map fun p => (v :: p.1, p.2)
    else none

/-- `PipeConnection._answer_request`: remove the inbound request number
from `unused_request_numbers` (`KeyError` if absent), read the argument
frames, vet and evaluate the call (`evalFn`; `none` = routine-fatal,
re-raised), put the result frame, and return the number to the set. -/
def answer_request (evalFn : String → List RValue → Option RValue)
    (unused : Finset Nat) (req_num : Nat) (function_string : String)
    (num_args : Nat) (msgs : List Frame) : Option (Finset Nat × List Frame) :=
  if req_num ∈ unused then
    (read_args req_num num_args msgs).bind fun p =>
      (evalFn function_string p.1).bind fun _result =>
        some (insert req_num (unused.erase req_num), p.2)
  else none

/-- What `_get_response` hands back to `reval`: the response value, or
`None` after a quit signal was serviced (acknowledgement sent with a
freshly popped request number, pipes closed). -/
inductive GResult where
  | value (v : RValue) : GResult
  | quitDone : GResult
  deriving DecidableEq, Repr

/-- The `while 1` loop of `PipeConnection._get_response`, driven by
fuel. -/
def get_response_loop (pick : Finset Nat → Nat)
    (evalFn : String → List RValue → Option RValue) (desired : Int) :
    Nat → Finset Nat → List Frame → Option (Finset Nat × GResult × List Frame)
  | 0, _, _ => none
  | _ + 1, _, [] => none
  | _ + 1, unused, Frame.quit :: rest =>
    if unused.Nonempty then
      some (unused.erase (pick unused), GResult.quitDone, rest)
    else none
  | fuel + 1, unused, Frame.msg req_num v :: rest =>
    if (req_num : Int) = desired then some (unused, GResult.value v, rest)
    else
      match v with
      | RValue.connReq fs nargs =>
        (answer_request evalFn unused req_num fs nargs rest).bind fun p =>
          get_response_loop pick evalFn desired fuel p.1 p.2
      | _ => none

/-- `PipeConnection._get_response`: every loop iteration consumes at
least one frame, so fuel equal to the frame count never runs out first. -/
def get_response (pick : Finset Nat → Nat)
    (evalFn : String → List RValue → Option RValue) (desired : Int)
    (unused : Finset Nat) (msgs : List Frame) :
    Option (Finset Nat × GResult × List Frame) :=
  get_response_loop pick evalFn desired msgs.length unused msgs

theorem get_response_loop_zero (pick : Finset Nat → Nat)
    (evalFn : String → List RValue → Option RValue) (desired : Int)
    (unused : Finset Nat) (msgs : List Frame) :
    get_response_loop pick evalFn desired 0 unused msgs = none := rfl

theorem get_response_loop_nil (pick : Finset Nat → Nat)
    (evalFn : String → List RValue → Option RValue) (desired : Int)
    (fuel : Nat) (unused : Finset Nat) :
    get_response_loop pick evalFn desired (fuel + 1) unused [] = none := rfl

theorem get_response_loop_quit (pick : Finset Nat → Nat)
    (evalFn : String → List RValue → Option RValue) (desired : Int)
    (fuel : Nat) (unused : Finset Nat) (rest : List Frame) :
    get_response_loop pick evalFn desired (fuel + 1) unused (Frame.quit :: rest)
      = if unused.Nonempty then
          some (unused.erase (pick unused), GResult.quitDone, rest)
        else none := rfl

theorem get_response_loop_msg (pick : Finset Nat → Nat)
    (evalFn : String → List RValue → Option RValue) (desired : Int)
    (fuel : Nat) (unused : Finset Nat) (req_num : Nat) (v : RValue)
    (rest : List Frame) :
    get_response_loop pick evalFn desired (fuel + 1) unused
        (Frame.msg req_num v :: rest)
      = if (req_num : Int) = desired then some (unused, GResult.value v, rest)
        else
          match v with
          | RValue.connReq fs nargs =>
            (answer_request evalFn unused req_num fs nargs rest).bind fun p =>
              get_response_loop pick evalFn desired fuel p.1 p.2
          | _ => none := rfl

/-- Outcome of `PipeConnection.reval`: a returned value, a re-raised
marshalled failure, or a normal `None` return after a serviced quit
signal (with the pipes closed). -/
inductive RevalOutcome where
  | returned (v : RValue) : RevalOutcome
  | raised (v : RValue) : RevalOutcome
  | quitClosed : RevalOutcome
  deriving DecidableEq, Repr

/-- The tail of `reval` after `_get_response` returns: translate a
marshalled `OSError`'s `errno_str` to the local platform's code
(`getattr(errno, errno_str, errno)`, i.e. `errnoAttr` with the original
number as default) and re-raise any marshalled failure
(`OSError` / `Exception` / `SystemExit` / `KeyboardInterrupt`); any other
value — including the `None` produced by a serviced quit — is returned. -/
def raiseOrReturn (errnoAttr : String → Option Nat) (v : RValue) : RevalOutcome :=
  match v with
  | RValue.osErr c (some s) m =>
    RevalOutcome.raised (RValue.osErr ((errnoAttr s).getD c) (some s) m)
  | RValue.osErr c none m => RevalOutcome.raised (RValue.osErr c none m)
  | RValue.exc msg => RevalOutcome.raised (RValue.exc msg)
  | w => RevalOutcome.returned w

/-- `PipeConnection.reval`: allocate a request number
(`_get_new_req_num`, `ConnectionError` when the set is exhausted), send
the request and argument frames, await the response, return the number
to the set, then re-raise marshalled failures (`raiseOrReturn`). -/
def reval (pick : Finset Nat → Nat)
    (evalFn : String → List RValue → Option RValue)
    (errnoAttr : String → Option Nat) (unused : Finset Nat)
    (function_string : String) (args : List RValue) (msgs : List Frame) :
    Option (Finset Nat × RevalOutcome) :=
  if unused.Nonempty then
    match get_response pick evalFn ((pick unused : Nat) : Int)
        (unused.erase (pick unused)) msgs with
    | none => none
    | some (u2, GResult.quitDone, _) =>
      some (insert (pick unused) u2, RevalOutcome.quitClosed)
    | some (u2, GResult.value v, _) =>
      some (insert (pick unused) u2, raiseOrReturn errnoAttr v)
  else none

/-- A concrete instance of `set.pop`'s choice: the smallest element. -/
def pickMin (s : Finset Nat) : Nat :=
  if h : s.Nonempty then s.min' h else 0

theorem pickMin_mem (s : Finset Nat) (h : s.Nonempty) : pickMin s ∈ s := by
  rw [pickMin, dif_pos h]
  exact s.min'_mem h

/-! ## Properties of the argument loop -/

theorem someBind {A B : Type} (a : A) (f : A → Option B) :
    (some a).bind f = f a := rfl

theorem noneBind {A B : Type} (f : A → Option B) :
    (none : Option A).bind f = none := rfl

theorem someMap {A B : Type} (a : A) (f : A → B) :
    (some a).map f = some (f a) := rfl

theorem noneMap {A B : Type} (f : A → B) :
    (none : Option A).map f = none := rfl

theorem read_args_some (req_num : Nat) :
    ∀ (n : Nat) (msgs : List Frame) (args : List RValue) (rest : List Frame),
      read_args req_num n msgs = some (args, rest) →
      rest = msgs.drop n ∧ args.length = n ∧
        ∀ k, k < n → ∃ v, msgs[k]? = some (Frame.msg req_num v) := by
  intro n
  induction n with
  | zero =>
    intro msgs args rest h
    rw [read_args] at h
    simp only [Option.some.injEq, Prod.mk.injEq] at h
    obtain ⟨h1, h2⟩ := h
    subst h1
    subst h2
    exact ⟨rfl, rfl, fun k hk => absurd hk (by omega)⟩
  | succ n ih =>
    intro msgs args rest h
    match msgs with
    | [] => rw [read_args] at h; exact Option.noConfusion h
    | Frame.quit :: tail => rw [read_args] at h; exact Option.noConfusion h
    | Frame.msg a v :: tail =>
      rw [read_args] at h
      by_cases ha : a = req_num
      · rw [if_pos ha] at h
        cases e : read_args req_num n tail with
        | none => rw [e, noneMap] at h; exact Option.noConfusion h
        | some p =>
          rw [e, someMap] at h
          simp only [Option.some.injEq, Prod.mk.injEq] at h
          obtain ⟨hargs, hrest⟩ := h
          obtain ⟨hr, hl, hidx⟩ := ih tail p.1 p.2 (by rw [e])
          subst ha
          refine ⟨by rw [← hrest, hr]; rfl, by rw [← hargs]; simp [hl], ?_⟩
          intro k hk
          match k with
          | 0 => exact ⟨v, by simp⟩
          | k + 1 =>
            obtain ⟨w, hw⟩ := hidx k (by omega)
            exact ⟨w, by simpa using hw⟩
      · rw [if_neg ha] at h
        exact Option.noConfusion h

theorem read_args_mismatch (req_num : Nat) :
    ∀ (k n : Nat) (msgs : List Frame) (a : Nat) (v : RValue),
      k < n → msgs[k]? = some (Frame.msg a v) → a ≠ req_num →
      (∀ j, j < k → ∃ w, msgs[j]? = some (Frame.msg req_num w)) →
      read_args req_num n msgs = none := by
  intro k
  induction k with
  | zero =>
    intro n msgs a v hk hget hne _
    match msgs with
    | [] => simp at hget
    | f :: tail =>
      simp only [List.getElem?_cons_zero, Option.some.injEq] at hget
      subst hget
      match n, hk with
      | m + 1, _ => rw [read_args, if_neg hne]
  | succ k ih =>
    intro n msgs a v hk hget hne hpre
    match msgs with
    | [] => simp at hget
    | f :: tail =>
      obtain ⟨w, hw⟩ := hpre 0 (by omega)
      simp only [List.getElem?_cons_zero, Option.some.injEq] at hw
      subst hw
      match n, hk with
      | m + 1, _ =>
        rw [read_args, if_pos rfl]
        have hnone : read_args req_num m tail = none := by
          refine ih m tail a v (by omega) (by simpa using hget) hne ?_
          intro j hj
          obtain ⟨w2, hw2⟩ := hpre (j + 1) (by omega)
          exact ⟨w2, by simpa using hw2⟩
        rw [hnone, noneMap]

theorem answer_request_some (evalFn : String → List RValue → Option RValue)
    (unused : Finset Nat) (req_num : Nat) (fs : String) (nargs : Nat)
    (msgs : List Frame) (u2 : Finset Nat) (rest2 : List Frame)
    (h : answer_request evalFn unused req_num fs nargs msgs = some (u2, rest2)) :
    req_num ∈ unused ∧ u2 = unused ∧ rest2 = msgs.drop nargs ∧
      ∀ k, k < nargs → ∃ v, msgs[k]? = some (Frame.msg req_num v) := by
  rw [answer_request] at h
  by_cases hm : req_num ∈ unused
  · rw [if_pos hm] at h
    cases e : read_args req_num nargs msgs with
    | none => rw [e, noneBind] at h; exact Option.noConfusion h
    | some p =>
      rw [e, someBind] at h
      cases ev : evalFn fs p.1 with
      | none => rw [ev, noneBind] at h; exact Option.noConfusion h
      | some r =>
        rw [ev, someBind] at h
        simp only [Option.some.injEq, Prod.mk.injEq] at h
        obtain ⟨hu, hr⟩ := h
        obtain ⟨hrest, _, hidx⟩ := read_args_some req_num nargs msgs p.1 p.2 (by rw [e])
        exact ⟨hm, by rw [← hu, Finset.insert_erase hm], by rw [← hr, hrest], hidx⟩
  · rw [if_neg hm] at h
    exact Option.noConfusion h

theorem answer_request_none_of_read_args_none
    (evalFn : String → List RValue → Option RValue) (unused : Finset Nat)
    (req_num : Nat) (fs : String) (nargs : Nat) (msgs : List Frame)
    (h : read_args req_num nargs msgs = none) :
    answer_request evalFn unused req_num fs nargs msgs = none := by
  rw [answer_request]
  by_cases hm : req_num ∈ unused
  · rw [if_pos hm, h, noneBind]
  · rw [if_neg hm]

/-! ## Conservation of the request-number set -/

theorem get_response_loop_value_unused (pick : Finset Nat → Nat)
    (evalFn : String → List RValue → Option RValue) (desired : Int) :
    ∀ (fuel : Nat) (unused u' : Finset Nat) (msgs rest' : List Frame) (v : RValue),
      get_response_loop pick evalFn desired fuel unused msgs
          = some (u', GResult.value v, rest') →
      u' = unused := by
  intro fuel
  induction fuel with
  | zero =>
    intro unused u' msgs rest' v h
    rw [get_response_loop_zero] at h
    exact Option.noConfusion h
  | succ fuel ih =>
    intro unused u' msgs rest' v h
    match msgs with
    | [] =>
      rw [get_response_loop_nil] at h
      exact Option.noConfusion h
    | Frame.quit :: rest =>
      rw [get_response_loop_quit] at h
      by_cases hne : unused.Nonempty
      · rw [if_pos hne] at h
        simp at h
      · rw [if_neg hne] at h
        exact Option.noConfusion h
    | Frame.msg n w :: rest =>
      rw [get_response_loop_msg] at h
      by_cases hd : (n : Int) = desired
      · rw [if_pos hd] at h
        simp only [Option.some.injEq, Prod.mk.injEq] at h
        exact h.1.symm
      · rw [if_neg hd] at h
        cases w with
        | connReq fs nargs =>
          replace h :
              (answer_request evalFn unused n fs nargs rest).bind
                (fun p => get_response_loop pick evalFn desired fuel p.1 p.2)
                = some (u', GResult.value v, rest') := h
          cases e : answer_request evalFn unused n fs nargs rest with
          | none =>
            rw [e, noneBind] at h
            exact Option.noConfusion h
          | some p =>
            rw [e, someBind] at h
            have hp := answer_request_some evalFn unused n fs nargs rest p.1 p.2
              (by rw [e])
            exact (ih p.1 u' p.2 rest' v h).trans hp.2.1
        | obj n2 => exact Option.noConfusion h
        | str s2 => exact Option.noConfusion h
        | none_ => exact Option.noConfusion h
        | exc m2 => exact Option.noConfusion h
        | osErr c2 s2 m2 => exact Option.noConfusion h

theorem get_response_value_unused (pick : Finset Nat → Nat)
    (evalFn : String → List RValue → Option RValue) (desired : Int)
    (unused u' : Finset Nat) (msgs rest' : List Frame) (v : RValue)
    (h : get_response pick evalFn desired unused msgs
        = some (u', GResult.value v, rest')) :
    u' = unused :=
  get_response_loop_value_unused pick evalFn desired msgs.length unused u' msgs
    rest' v h

/-- When a `reval` completes without having serviced a quit signal, the
request number it popped is the only change, and it is put back. -/
theorem reval_completed_unused (pick : Finset Nat → Nat)
    (hpick : ∀ s : Finset Nat, s.Nonempty → pick s ∈ s)
    (evalFn : String → List RValue → Option RValue)
    (errnoAttr : String → Option Nat) (unused : Finset Nat)
    (fs : String) (args : List RValue) (msgs : List Frame)
    (u' : Finset Nat) (out : RevalOutcome)
    (h : reval pick evalFn errnoAttr unused fs args msgs = some (u', out))
    (hq : out ≠ RevalOutcome.quitClosed) :
    u' = unused := by
  rw [reval] at h
  by_cases hne : unused.Nonempty
  · rw [if_pos hne] at h
    have hmem : pick unused ∈ unused := hpick unused hne
    cases e : get_response pick evalFn ((pick unused : Nat) : Int)
        (unused.erase (pick unused)) msgs with
    | none =>
      rw [e] at h
      exact Option.noConfusion h
    | some p =>
      obtain ⟨u2, gr, rest⟩ := p
      rw [e] at h
      cases gr with
      | quitDone =>
        replace h :
            some (insert (pick unused) u2, RevalOutcome.quitClosed)
              = some (u', out) := h
        simp only [Option.some.injEq, Prod.mk.injEq] at h
        exact absurd h.2.symm hq
      | value v =>
        replace h :
            some (insert (pick unused) u2, raiseOrReturn errnoAttr v)
              = some (u', out) := h
        simp only [Option.some.injEq, Prod.mk.injEq] at h
        have hu2 : u2 = unused.erase (pick unused) :=
          get_response_value_unused pick evalFn _ _ u2 msgs rest v e
        rw [← h.1, hu2, Finset.insert_erase hmem]
  · rw [if_neg hne] at h
    exact Option.noConfusion h

/-! ## Claim theorems on the request engine -/

/-- C2 counterexample: starting from the full set `{0..255}`, a `reval`
that receives a quit signal completes normally (it returns `None` after
closing the pipes), but the `"quitting"` acknowledgement popped a second
request number (1) that is never returned — the post-call set differs
from the pre-call set. -/
theorem reval_conservation_cex :
    reval pickMin (fun _ _ => some RValue.none_) (fun _ => none)
        (Finset.range 256) "pow" [] [Frame.quit]
      = some (insert 0 (((Finset.range 256).erase 0).erase 1),
          RevalOutcome.quitClosed) ∧
    insert 0 (((Finset.range 256).erase 0).erase 1) ≠ Finset.range 256 := by
  constructor
  · rfl
  · intro hEq
    have h1 : (1 : Nat) ∈ Finset.range 256 := Finset.mem_range.mpr (by norm_num)
    rw [← hEq] at h1
    rcases Finset.mem_insert.mp h1 with h | h
    · exact absurd h (by norm_num)
    · exact Finset.not_mem_erase 1 _ h

/-- C2 (amended): after any completed `reval` during which no quit
signal was serviced, the peer's `unused_request_numbers` set equals its
pre-call value — the popped number is returned, and every inbound request
answered while waiting removes and then restores its own number. -/
theorem reval_conserves_unused (pick : Finset Nat → Nat)
    (hpick : ∀ s : Finset Nat, s.Nonempty → pick s ∈ s)
    (evalFn : String → List RValue → Option RValue)
    (errnoAttr : String → Option Nat) (unused : Finset Nat)
    (fs : String) (args : List RValue) (msgs : List Frame)
    (u' : Finset Nat) (out : RevalOutcome)
    (h : reval pick evalFn errnoAttr unused fs args msgs = some (u', out))
    (hq : out ≠ RevalOutcome.quitClosed) :
    u' = unused :=
  reval_completed_unused pick hpick evalFn errnoAttr unused fs args msgs u' out h hq

/-- Witness for `reval_conserves_unused`: a plain call answered with the
value 7 under request number 0 restores the full set `{0..255}`. -/
theorem reval_conserves_unused_witness :
    reval pickMin (fun _ _ => some RValue.none_) (fun _ => none)
        (Finset.range 256) "pow" [] [Frame.msg 0 (RValue.obj 7)]
      = some (insert 0 ((Finset.range 256).erase 0),
          RevalOutcome.returned (RValue.obj 7)) ∧
    insert 0 ((Finset.range 256).erase 0) = Finset.range 256 := by
  have h : reval pickMin (fun _ _ => some RValue.none_) (fun _ => none)
      (Finset.range 256) "pow" [] [Frame.msg 0 (RValue.obj 7)]
      = some (insert 0 ((Finset.range 256).erase 0),
          RevalOutcome.returned (RValue.obj 7)) := rfl
  exact ⟨h, reval_conserves_unused pickMin pickMin_mem _ _ _ _ _ _ _ _ h
    (fun hh => RevalOutcome.noConfusion hh)⟩

/-- C7: `_answer_request` reads exactly `num_args` argument frames — on
success the pipe is left exactly `num_args` frames further, and every
frame read carried the request's own number — and an argument frame
bearing a different request number (all earlier ones matching) makes the
call fail (assertion error) instead of being accepted. -/
theorem answer_request_arg_validation
    (evalFn : String → List RValue → Option RValue) (unused : Finset Nat)
    (req_num : Nat) (fs : String) (nargs : Nat) (msgs : List Frame) :
    (∀ u2 rest2,
      answer_request evalFn unused req_num fs nargs msgs = some (u2, rest2) →
      rest2 = msgs.drop nargs ∧
        ∀ k, k < nargs → ∃ v, msgs[k]? = some (Frame.msg req_num v)) ∧
    (∀ k a v, k < nargs → msgs[k]? = some (Frame.msg a v) → a ≠ req_num →
      (∀ j, j < k → ∃ w, msgs[j]? = some (Frame.msg req_num w)) →
      answer_request evalFn unused req_num fs nargs msgs = none) := by
  constructor
  · intro u2 rest2 h
    obtain ⟨_, _, hrest, hidx⟩ :=
      answer_request_some evalFn unused req_num fs nargs msgs u2 rest2 h
    exact ⟨hrest, hidx⟩
  · intro k a v hk hget hne hpre
    exact answer_request_none_of_read_args_none evalFn unused req_num fs nargs msgs
      (read_args_mismatch req_num k nargs msgs a v hk hget hne hpre)

/-- Witness for `answer_request_arg_validation`: a two-argument request
under number 5 whose matching frames are consumed exactly, and the same
request aborted when the second argument frame arrives under number 6. -/
theorem answer_request_arg_validation_witness :
    answer_request (fun _ _ => some RValue.none_) {0, 5} 5 "pow" 2
        [Frame.msg 5 (RValue.obj 1), Frame.msg 5 (RValue.obj 2), Frame.quit]
      = some (insert 5 (({0, 5} : Finset Nat).erase 5), [Frame.quit]) ∧
    [Frame.quit] =
      List.drop 2 [Frame.msg 5 (RValue.obj 1), Frame.msg 5 (RValue.obj 2), Frame.quit] ∧
    answer_request (fun _ _ => some RValue.none_) {0, 5} 5 "pow" 2
        [Frame.msg 5 (RValue.obj 1), Frame.msg 6 (RValue.obj 2)]
      = none := by
  have h1 : answer_request (fun _ _ => some RValue.none_) {0, 5} 5 "pow" 2
      [Frame.msg 5 (RValue.obj 1), Frame.msg 5 (RValue.obj 2), Frame.quit]
      = some (insert 5 (({0, 5} : Finset Nat).erase 5), [Frame.quit]) := rfl
  refine ⟨h1,
    ((answer_request_arg_validation (fun _ _ => some RValue.none_) {0, 5} 5 "pow" 2
      [Frame.msg 5 (RValue.obj 1), Frame.msg 5 (RValue.obj 2), Frame.quit]).1
      (insert 5 (({0, 5} : Finset Nat).erase 5)) [Frame.quit] h1).1, ?_⟩
  refine (answer_request_arg_validation (fun _ _ => some RValue.none_) {0, 5} 5 "pow" 2
    [Frame.msg 5 (RValue.obj 1), Frame.msg 6 (RValue.obj 2)]).2
    1 6 (RValue.obj 2) (by omega) rfl (by omega) ?_
  intro j hj
  have hj0 : j = 0 := by omega
  subst hj0
  exact ⟨RValue.obj 1, rfl⟩

/-- C10: when the response arriving for a `reval` is a marshalled remote
failure, `unused_request_numbers.add(req_num)` runs before the failure is
re-raised, so the post-call set equals the pre-call set even though
`reval` raises. -/
theorem reval_raise_restores_unused (pick : Finset Nat → Nat)
    (hpick : ∀ s : Finset Nat, s.Nonempty → pick s ∈ s)
    (evalFn : String → List RValue → Option RValue)
    (errnoAttr : String → Option Nat) (unused : Finset Nat)
    (fs : String) (args : List RValue) (msgs : List Frame)
    (u' : Finset Nat) (v : RValue)
    (h : reval pick evalFn errnoAttr unused fs args msgs
        = some (u', RevalOutcome.raised v)) :
    u' = unused :=
  reval_completed_unused pick hpick evalFn errnoAttr unused fs args msgs u'
    (RevalOutcome.raised v) h (fun hh => RevalOutcome.noConfusion hh)

/-- Witness for `reval_raise_restores_unused`: the response under request
number 0 is a marshalled exception, which `reval` re-raises after
restoring the full set `{0..255}`. -/
theorem reval_raise_restores_unused_witness :
    reval pickMin (fun _ _ => some RValue.none_) (fun _ => none)
        (Finset.range 256) "os.chmod" [] [Frame.msg 0 (RValue.exc "boom")]
      = some (insert 0 ((Finset.range 256).erase 0),
          RevalOutcome.raised (RValue.exc "boom")) ∧
    insert 0 ((Finset.range 256).erase 0) = Finset.range 256 := by
  have h : reval pickMin (fun _ _ => some RValue.none_) (fun _ => none)
      (Finset.range 256) "os.chmod" [] [Frame.msg 0 (RValue.exc "boom")]
      = some (insert 0 ((Finset.range 256).erase 0),
          RevalOutcome.raised (RValue.exc "boom")) := rfl
  exact ⟨h, reval_raise_restores_unused pickMin pickMin_mem _ _ _ _ _ _ _ _ h⟩

/-! ## Name resolver: `Connection._eval`

`_eval(funcstring)` splits the dotted string on `"."` and pops the first
segment.  If that segment names a process-level built-in it is returned
**immediately** — the remaining segments are not walked.  Otherwise the
first segment is looked up in the curated `Connection.globals` registry
and the remaining segments are walked with `getattr`; a `KeyError` or
`AttributeError` becomes `NameError("name '<full>' is not defined")`.

`str.split(".")` is embedded as a structural recursion over the string's
characters (same semantics: `"" → [""]`, separators never merged). -/

def splitDotAux : List Char → List Char → List String
  | [], acc => [String.mk acc.reverse]
  | c :: rest, acc =>
    if c = '.' then String.mk acc.reverse :: splitDotAux rest []
    else splitDotAux rest (c :: acc)

/-- Python's `funcstring.split(".")`. -/
def splitDot (s : String) : List String := splitDotAux s.data []

/-- The message of the `NameError` raised by `_eval`. -/
def nameNotDefined (funcstring : String) : String :=
  "name '" ++ funcstring ++ "' is not defined"

/-- The `getattr` walk over the remaining segments (registry branch). -/
def walkAttrs {α : Type} (getAttr : α → String → Option α) :
    α → List String → Option α
  | v, [] => some v
  | v, seg :: rest =>
    match getAttr v seg with
    | none => none
    | some w => walkAttrs getAttr w rest

/-- `Connection._eval`.  `builtins` is membership in `__builtins__`,
`globalsMap` the curated registry `Connection.globals`, `getAttr` Python's
`getattr` (`none` = `AttributeError`). -/
def conn_eval {α : Type} (builtins globalsMap : String → Option α)
    (getAttr : α → String → Option α) (funcstring : String) :
    Except String α :=
  match builtins ((splitDot funcstring).headD "") with
  | some v => Except.ok v
  | none =>
    match globalsMap ((splitDot funcstring).headD "") with
    | none => Except.error (nameNotDefined funcstring)
    | some f =>
      match walkAttrs getAttr f (splitDot funcstring).tail with
      | none => Except.error (nameNotDefined funcstring)
      | some v => Except.ok v

/-- The resolver as the specification describes it (C5): a built-in first
segment is *also* walked through the remaining segments, failure raising
the same `NameError`.  Only used to exhibit the divergence. -/
def conn_eval_specced {α : Type} (builtins globalsMap : String → Option α)
    (getAttr : α → String → Option α) (funcstring : String) :
    Except String α :=
  match builtins ((splitDot funcstring).headD "") with
  | some v =>
    match walkAttrs getAttr v (splitDot funcstring).tail with
    | none => Except.error (nameNotDefined funcstring)
    | some w => Except.ok w
  | none =>
    match globalsMap ((splitDot funcstring).headD "") with
    | none => Except.error (nameNotDefined funcstring)
    | some f =>
      match walkAttrs getAttr f (splitDot funcstring).tail with
      | none => Except.error (nameNotDefined funcstring)
      | some v => Except.ok v

/-- C5 counterexample: with `len` a built-in that has no `foo` attribute,
`_eval("len.foo")` returns the built-in `len` itself — the remaining
segment is silently ignored — whereas the claimed behaviour (walking the
remaining segments, `NameError` on failure) would reject it. -/
theorem name_resolution_cex :
    conn_eval (fun s => if s = "len" then some 100 else none)
        (fun _ => none) (fun _ _ => none) "len.foo" = Except.ok 100 ∧
    conn_eval_specced (fun s => if s = "len" then some 100 else none)
        (fun _ => none) (fun _ _ => none) "len.foo"
      = Except.error "name 'len.foo' is not defined" ∧
    (Except.ok 100 : Except String Nat)
      ≠ Except.error "name 'len.foo' is not defined" := by
  refine ⟨rfl, rfl, ?_⟩
  intro h
  exact Except.noConfusion h

/-- C5 (amended): a first segment naming a built-in is returned directly,
the remaining segments being ignored; otherwise the first segment is
resolved in the curated registry and the remaining segments are walked by
attribute, any failure raising `NameError("name '<full>' is not
defined")` with the full dotted string. -/
theorem name_resolution {α : Type} (builtins globalsMap : String → Option α)
    (getAttr : α → String → Option α) (funcstring first : String)
    (rest : List String) (hsplit : splitDot funcstring = first :: rest) :
    (∀ v, builtins first = some v →
      conn_eval builtins globalsMap getAttr funcstring = Except.ok v) ∧
    (builtins first = none → globalsMap first = none →
      conn_eval builtins globalsMap getAttr funcstring
        = Except.error (nameNotDefined funcstring)) ∧
    (∀ f, builtins first = none → globalsMap first = some f →
      walkAttrs getAttr f rest = none →
      conn_eval builtins globalsMap getAttr funcstring
        = Except.error (nameNotDefined funcstring)) ∧
    (∀ f v, builtins first = none → globalsMap first = some f →
      walkAttrs getAttr f rest = some v →
      conn_eval builtins globalsMap getAttr funcstring = Except.ok v) := by
  refine ⟨?_, ?_, ?_, ?_⟩
  · intro v hb
    rw [conn_eval, hsplit]
    simp only [List.headD_cons, hb]
  · intro hb hg
    rw [conn_eval, hsplit]
    simp only [List.headD_cons, hb, hg]
  · intro f hb hg hw
    rw [conn_eval, hsplit]
    simp only [List.headD_cons, List.tail_cons, hb, hg, hw]
  · intro f v hb hg hw
    rw [conn_eval, hsplit]
    simp only [List.headD_cons, List.tail_cons, hb, hg, hw]

/-- Witness for `name_resolution`: resolving `os.chmod` through a
registry where `os` has a `chmod` attribute, and the `NameError` for an
unknown name `shutil.rmtree`. -/
theorem name_resolution_witness :
    conn_eval (fun _ => none)
        (fun s => if s = "os" then some 1 else none)
        (fun v s => if v = 1 ∧ s = "chmod" then some 2 else none)
        "os.chmod" = Except.ok 2 ∧
    conn_eval (fun _ => none)
        (fun s => if s = "os" then some 1 else none)
        (fun v s => if v = 1 ∧ s = "chmod" then some 2 else none)
        "shutil.rmtree" = Except.error "name 'shutil.rmtree' is not defined" := by
  constructor
  · exact (name_resolution (fun _ => none)
      (fun s => if s = "os" then some 1 else none)
      (fun v s => if v = 1 ∧ s = "chmod" then some 2 else none)
      "os.chmod" "os" ["chmod"] rfl).2.2.2 1 2 rfl rfl rfl
  · exact (name_resolution (fun _ => none)
      (fun s => if s = "os" then some 1 else none)
      (fun v s => if v = 1 ∧ s = "chmod" then some 2 else none)
      "shutil.rmtree" "shutil" ["rmtree"] rfl).2.1 rfl rfl

/-! ## Error marshaller: `_extract_exception` and the `reval` receive side

The sender (`PipeConnection._extract_exception`) records, for an
`OSError` with a truthy `errno`, the symbolic name of the code
(`errno.errorcode.get(errno, "EUNKWN")`) in a new `errno_str` attribute
and prefixes `strerror` with the original numeric code and symbolic name.
The receiver (`PipeConnection.reval`) maps `errno_str` back through its
own platform's `errno` module: `getattr(errno, errno_str, original)`. -/

/-- A marshalled `OSError`: numeric code, the `errno_str` attribute when
set, and the message.  A freshly raised `OSError` has `errno_str = none`. -/
structure OSErrorRec where
  errno : Nat
  errno_str : Option String
  strerror : String
  deriving DecidableEq, Repr

/-- The `OSError` branch of `PipeConnection._extract_exception`.
`errorcode` is the sender platform's `errno.errorcode` table. -/
def extract_exception_os (errorcode : Nat → Option String) (e : OSErrorRec) :
    OSErrorRec :=
  if e.errno ≠ 0 then
    { errno := e.errno,
      errno_str := some ((errorcode e.errno).getD "EUNKWN"),
      strerror := "[original: Errno " ++ toString e.errno ++ " "
        ++ (errorcode e.errno).getD "EUNKWN" ++ "] " ++ e.strerror }
  else e

/-- The receive-side translation in `PipeConnection.reval`:
`result.errno = getattr(errno, result.errno_str, result.errno)`.
`errnoAttr` is attribute lookup on the receiver's `errno` module. -/
def translate_os_error (errnoAttr : String → Option Nat) (e : OSErrorRec) :
    OSErrorRec :=
  match e.errno_str with
  | some s => { e with errno := (errnoAttr s).getD e.errno }
  | none => e

/-- C4: an `OSError` with nonzero code `C` is marshalled with the
sender's symbolic name for `C` recorded in `errno_str` and the message
prefixed with the original code and name; the receiver re-raises it with
the local platform's code for that name, falling back to the original
`C` when the name is unknown locally; a code unknown to the sender is
tagged `EUNKWN` (which no platform's `errno` module defines, hence the
original code survives). -/
theorem os_error_translation (errorcode : Nat → Option String)
    (errnoAttr : String → Option Nat) (C : Nat) (msg : String)
    (hz : C ≠ 0) (hU : errnoAttr "EUNKWN" = none) :
    (∀ S, errorcode C = some S →
      (extract_exception_os errorcode ⟨C, none, msg⟩).errno_str = some S ∧
      (extract_exception_os errorcode ⟨C, none, msg⟩).strerror
        = "[original: Errno " ++ toString C ++ " " ++ S ++ "] " ++ msg ∧
      (translate_os_error errnoAttr
          (extract_exception_os errorcode ⟨C, none, msg⟩)).errno
        = (errnoAttr S).getD C) ∧
    (errorcode C = none →
      (extract_exception_os errorcode ⟨C, none, msg⟩).errno_str
        = some "EUNKWN" ∧
      (translate_os_error errnoAttr
          (extract_exception_os errorcode ⟨C, none, msg⟩)).errno = C) := by
  constructor
  · intro S hS
    refine ⟨?_, ?_, ?_⟩
    · simp [extract_exception_os, hz, hS]
    · simp [extract_exception_os, hz, hS]
    · simp [extract_exception_os, translate_os_error, hz, hS]
  · intro hS
    refine ⟨?_, ?_⟩
    · simp [extract_exception_os, hz, hS]
    · simp [extract_exception_os, translate_os_error, hz, hS, hU]

/-- Witness for `os_error_translation`: `EACCES` (13) round-trips to the
receiver's `EACCES` value (here 77), and the unknown sender code 99999 is
tagged `EUNKWN` and survives numerically. -/
theorem os_error_translation_witness :
    (translate_os_error (fun s => if s = "EACCES" then some 77 else none)
        (extract_exception_os (fun c => if c = 13 then some "EACCES" else none)
          ⟨13, none, "Permission denied"⟩)).errno = (77 : Nat) ∧
    (extract_exception_os (fun c => if c = 13 then some "EACCES" else none)
        ⟨13, none, "Permission denied"⟩).errno_str = some "EACCES" ∧
    (translate_os_error (fun s => if s = "EACCES" then some 77 else none)
        (extract_exception_os (fun c => if c = 13 then some "EACCES" else none)
          ⟨99999, none, "odd"⟩)).errno = (99999 : Nat) := by
  have h1 := (os_error_translation
    (fun c => if c = 13 then some "EACCES" else none)
    (fun s => if s = "EACCES" then some 77 else none)
    13 "Permission denied" (by norm_num) (by simp)).1 "EACCES" rfl
  have h2 := (os_error_translation
    (fun c => if c = 13 then some "EACCES" else none)
    (fun s => if s = "EACCES" then some 77 else none)
    99999 "odd" (by norm_num) (by simp)).2 (by norm_num)
  exact ⟨by rw [h1.2.2]; rfl, h1.1, h2.2⟩

/-! ## Routed peers: `RedirectedConnection` and `RedirectedRun`

A routed peer holds `(conn_number, routing_number)`; its `reval` rewrites
the call through the routing peer.  `RedirectedRun`, executed on the
routing side, resolves the target in `specifics.connection_dict` and
asserts it is not the local connection before forwarding.  Peers are
identified by abstract ids; `revalFn i name args` is peer `i`'s `reval`. -/

/-- `RedirectedConnection`: a peer more than one hop away. -/
structure RedirectedConnection where
  conn_number : Nat
  routing_number : Nat
  deriving DecidableEq, Repr

/-- `RedirectedConnection.reval`. -/
def redirected_reval (revalFn : Nat → String → List RValue → RValue)
    (rc : RedirectedConnection) (function_string : String)
    (args : List RValue) : RValue :=
  revalFn rc.routing_number "RedirectedRun"
    (RValue.obj rc.conn_number :: RValue.str function_string :: args)

/-- The module-level `RedirectedRun(conn_number, func, *args)` as run on
the routing peer: look the target up in the routing peer's own
`connection_dict` (`KeyError` = `none`), assert it is not the local
connection, and forward.  `localConn` is the routing process's
`specifics.local_connection`. -/
def RedirectedRun (connDict : Nat → Option Nat) (localConn : Nat)
    (revalFn : Nat → String → List RValue → RValue)
    (conn_number : Nat) (func : String) (args : List RValue) :
    Option RValue :=
  match connDict conn_number with
  | none => none
  | some c =>
    if c = localConn then none
    else some (revalFn c func args)

/-- C8: a routed peer's `reval(name, args…)` is exactly
`routing_peer.reval("RedirectedRun", target, name, args…)`; and
`RedirectedRun` on the routing side resolves the target in its own
registry, rejecting the call when that target is its own local peer and
forwarding it otherwise. -/
theorem routed_call (revalFn : Nat → String → List RValue → RValue)
    (connDict : Nat → Option Nat) (localConn : Nat)
    (rc : RedirectedConnection) (fs : String) (args : List RValue) :
    redirected_reval revalFn rc fs args
      = revalFn rc.routing_number "RedirectedRun"
          (RValue.obj rc.conn_number :: RValue.str fs :: args) ∧
    (∀ t, connDict t = some localConn →
      RedirectedRun connDict localConn revalFn t fs args = none) ∧
    (∀ t c, connDict t = some c → c ≠ localConn →
      RedirectedRun connDict localConn revalFn t fs args
        = some (revalFn c fs args)) := by
  refine ⟨rfl, ?_, ?_⟩
  · intro t ht
    rw [RedirectedRun, ht]
    simp
  · intro t c ht hc
    rw [RedirectedRun, ht]
    simp [hc]

/-- Witness for `routed_call`: peer 2 routed through peer 1; the routing
peer's registry maps 2 to peer-id 2 and 0 to the local peer 0 — the call
forwards to 2 and a redirected run targeting 0 is rejected. -/
theorem routed_call_witness :
    redirected_reval (fun i n _ => RValue.connReq n i)
        ⟨2, 1⟩ "identity" [RValue.str "ping"]
      = RValue.connReq "RedirectedRun" 1 ∧
    RedirectedRun (fun t => if t ≤ 2 then some t else none) 0
        (fun i n _ => RValue.connReq n i) 0 "identity"
        [RValue.str "ping"] = none ∧
    RedirectedRun (fun t => if t ≤ 2 then some t else none) 0
        (fun i n _ => RValue.connReq n i) 2 "identity"
        [RValue.str "ping"] = some (RValue.connReq "identity" 2) := by
  have h := routed_call (fun i n _ => RValue.connReq n i)
    (fun t => if t ≤ 2 then some t else none) 0 ⟨2, 1⟩ "identity"
    [RValue.str "ping"]
  exact ⟨h.1, h.2.1 0 rfl, h.2.2 2 2 rfl (by norm_num)⟩

end RdiffConn
